import Mathlib

/-
Verification of the visibility-state logic of `streamlit_app.py`
(an interactive company/project map viewer).

The session state (`st.session_state`) is modelled by `AggMap.AppState`.
Python dicts are modelled as association lists that keep insertion order:
assignment to an existing key updates the value in place, assignment to a
fresh key appends at the end, exactly as a Python dict behaves.

Coordinates and radii are modelled as rationals.  The haversine distance
function of the source (lines 10-14) is transcendental, so the state
transitions are parametrised by an arbitrary distance function
`d : Q -> Q -> Q -> Q -> Q` standing for `haversine`; `haversine` itself is
embedded over the reals below and its algebraic properties are proved there.

Spreadsheet cells of numeric columns are modelled by `Option Q`: `none`
stands for a non-numeric cell, on which the source's arithmetic raises a
`TypeError`.  Stages of the processing pipeline that can raise return
`Except String`, and the top-level `processUpload` mirrors the
`try ... except` of lines 55-206: the session state is mutated in place,
so an exception keeps all mutations made before the raising stage.
-/

namespace AggMap

/-- Degrees-to-radians conversion, `math.radians` of the source. -/
noncomputable def radians (x : ℝ) : ℝ := x * Real.pi / 180

/-- Lines 10-14: the haversine great-circle distance in miles with Earth
radius 3958.8, written exactly as in the source. -/
noncomputable def haversine (lat1 lon1 lat2 lon2 : ℝ) : ℝ :=
  3958.8 * 2 * Real.arcsin (Real.sqrt
    (Real.sin (radians (lat2 - lat1) / 2) ^ 2 +
     Real.cos (radians lat1) * Real.cos (radians lat2) *
       Real.sin (radians (lon2 - lon1) / 2) ^ 2))

/-- A numeric spreadsheet cell: `some q` when the cell holds a number,
`none` when it holds a non-numeric value (arithmetic on it raises). -/
abbrev Cell := Option ℚ

/-- One row of the Companies sheet: Company Location, Company Name,
Latitude, Longitude. -/
structure CompanyRow where
  location : String
  cname : String
  lat : Cell
  lon : Cell
deriving DecidableEq

/-- One row of the Projects sheet: Project Name, Latitude, Longitude. -/
structure ProjectRow where
  pname : String
  lat : ℚ
  lon : ℚ
deriving DecidableEq

/-- A project-site record as stored in `st.session_state.project_sites`. -/
structure ProjectData where
  lat : ℚ
  lon : ℚ
  visible : Bool
deriving DecidableEq

/-- The session state set up in lines 17-20 of the source. -/
structure AppState where
  competitor_visibility : List (String × Bool)
  project_sites : List (String × ProjectData)
  all_competitors : List String
  last_radius : ℚ
deriving DecidableEq

/-- Lines 17-20: initial session state. -/
def initialState : AppState := ⟨[], [], [], -1⟩

/-- The two map modes of line 40. -/
inductive Mode where
  | allCompanies
  | radiusOfProject
deriving DecidableEq

/-- Dict lookup: `m[k]` / `m.get(k)` on a Python dict. -/
def lookupKV {β : Type} (k : String) : List (String × β) → Option β
  | [] => none
  | p :: rest => if k = p.1 then some p.2 else lookupKV k rest

/-- Dict assignment `m[k] = v`: update in place when the key exists,
append otherwise. -/
def dinsert {β : Type} (m : List (String × β)) (k : String) (v : β) :
    List (String × β) :=
  match m with
  | [] => [(k, v)]
  | p :: rest => if k = p.1 then (p.1, v) :: rest else p :: dinsert rest k v

/-- Set insertion `s.add(x)` for `all_competitors`. -/
def setAdd (s : List String) (x : String) : List String :=
  if x ∈ s then s else s ++ [x]

/-- Lines 34-36: the Add Project button handler.  The name is used as dict
key with no uniqueness or emptiness check; the entry is always visible. -/
def addProject (name : String) (la lo : ℚ) (st : AppState) : AppState :=
  { st with project_sites := dinsert st.project_sites name ⟨la, lo, true⟩ }

/-- Lines 67-71: on load, seed the project sites from the Projects sheet,
but only when the project-site dict is empty. -/
def seedProjects (rows : List ProjectRow) (st : AppState) : AppState :=
  if st.project_sites = [] then
    { st with project_sites :=
        (rows.foldl (fun m r => dinsert m r.pname ⟨r.lat, r.lon, true⟩)
          st.project_sites) }
  else st

/-- Lines 73-82: the Manage Project Sites sidebar.  `chk` gives the value
of each project's checkbox, `dels` the projects whose delete button was
pressed; every entry's visible flag is set from its checkbox and the
deleted entries are removed afterwards. -/
def manageProjects (chk : String → Bool) (dels : List String) (st : AppState) :
    AppState :=
  { st with project_sites :=
      ((st.project_sites.map (fun p => (p.1, { p.2 with visible := chk p.1 }))).filter
        (fun p => decide (¬ p.1 ∈ dels))) }

/-- Lines 84-88, one row: record the company location in `all_competitors`
and default its visibility to true when it has no entry yet. -/
def seedStep (st : AppState) (row : CompanyRow) : AppState :=
  let st1 := { st with all_competitors := setAdd st.all_competitors row.location }
  if (lookupKV row.location st1.competitor_visibility).isSome then st1
  else { st1 with competitor_visibility :=
          st1.competitor_visibility ++ [(row.location, true)] }

/-- Lines 84-88: the loop over the Companies sheet. -/
def seedCompetitors (rows : List CompanyRow) (st : AppState) : AppState :=
  rows.foldl seedStep st

/-- Application of the distance function to one company row; raises when a
coordinate cell is non-numeric, as the source's arithmetic would. -/
def rowDist (d : ℚ → ℚ → ℚ → ℚ → ℚ) (plat plon : ℚ) (row : CompanyRow) :
    Except String ℚ :=
  match row.lat, row.lon with
  | some la, some lo => Except.ok (d plat plon la lo)
  | _, _ => Except.error "unsupported operand type in distance computation"

/-- Lines 97-99: the Distance column, one pair (location, distance) per
company row, in row order; the first bad cell raises. -/
def computeDistances (d : ℚ → ℚ → ℚ → ℚ → ℚ) (plat plon : ℚ) :
    List CompanyRow → Except String (List (String × ℚ))
  | [] => Except.ok []
  | row :: rest =>
    match rowDist d plat plon row with
    | Except.error e => Except.error e
    | Except.ok dist =>
      match computeDistances d plat plon rest with
      | Except.error e => Except.error e
      | Except.ok ds => Except.ok ((row.location, dist) :: ds)

/-- Lines 97-108 given the reference project's data `pd`: the Distance
column is computed first (line 97, it may raise even when the guard below
fails); then, only when the requested radius differs from the last-applied
one, every company's flag is overwritten with `distance <= radius`, every
project's flag with the same comparison for its own distance, and the
last-applied radius is updated. -/
def recomputeFrom (d : ℚ → ℚ → ℚ → ℚ → ℚ) (radius : ℚ) (pd : ProjectData)
    (rows : List CompanyRow) (st : AppState) : Except String AppState :=
  match computeDistances d pd.lat pd.lon rows with
  | Except.error e => Except.error e
  | Except.ok ds =>
    if radius = st.last_radius then Except.ok st
    else Except.ok
      { st with
        competitor_visibility :=
          (ds.foldl (fun m p => dinsert m p.1 (decide (p.2 ≤ radius)))
            st.competitor_visibility),
        project_sites :=
          (st.project_sites.map (fun p =>
            (p.1, { p.2 with visible := decide (d pd.lat pd.lon p.2.lat p.2.lon ≤ radius) }))),
        last_radius := radius }

/-- Lines 90-108: the radius-handling step.  Only the radius-of-project
mode does anything, and only when some project is visible; the reference
is the first visible project in iteration order (`visible_projects[0]`). -/
def radiusStep (d : ℚ → ℚ → ℚ → ℚ → ℚ) (mode : Mode) (radius : ℚ)
    (rows : List CompanyRow) (st : AppState) : Except String AppState :=
  match mode with
  | Mode.allCompanies => Except.ok st
  | Mode.radiusOfProject =>
    match st.project_sites.filter (fun p => p.2.visible) with
    | [] => Except.ok st
    | sel :: _ => recomputeFrom d radius sel.2 rows st

/-- Lines 133-136 and 141-147: the bulk Select All / Deselect All action
over a group of company locations.  The direction is the aggregate state:
all members visible (missing entries default to true) means deselect all;
anything else means select all. -/
def bulkToggle (members : List String) (vis : List (String × Bool)) :
    List (String × Bool) :=
  let allOn := members.all (fun c => (lookupKV c vis).getD true)
  members.foldl (fun m c => dinsert m c (! allOn)) vis

/-- Lines 149-153: a single company checkbox writes its value back. -/
def setCompetitorVisible (c : String) (b : Bool) (st : AppState) : AppState :=
  { st with competitor_visibility := dinsert st.competitor_visibility c b }

/-- Line 61: required columns of the Companies sheet. -/
def requiredCompanyCols : List String :=
  ["Company Location", "Latitude", "Longitude", "Company Name"]

/-- Line 64: required columns of the Projects sheet. -/
def requiredProjectCols : List String :=
  ["Project Name", "Latitude", "Longitude"]

/-- Whether a sheet has all required columns. -/
def hasCols (req cols : List String) : Bool :=
  req.all (fun c => decide (c ∈ cols))

/-- The Companies sheet: its column list and its rows. -/
structure CompaniesSheet where
  cols : List String
  rows : List CompanyRow
deriving DecidableEq

/-- The Projects sheet: its column list and its rows. -/
structure ProjectsSheet where
  cols : List String
  rows : List ProjectRow
deriving DecidableEq

/-- Lines 55-108 and 205-206: one processing pass over an uploaded file.
The column checks of lines 61-65 come first and mutate nothing; then the
state-mutating stages run in source order, each mutating the session state
in place; an exception from the distance computation is caught by the
handler of lines 205-206, which reports the message and keeps every
mutation made before the raise. -/
def processUpload (d : ℚ → ℚ → ℚ → ℚ → ℚ) (mode : Mode) (radius : ℚ)
    (chk : String → Bool) (dels : List String)
    (companies : CompaniesSheet) (projects : ProjectsSheet) (st : AppState) :
    AppState × Option String :=
  if hasCols requiredCompanyCols companies.cols = false then
    (st, some "Companies sheet must include Company Location, Latitude, Longitude, Company Name")
  else if hasCols requiredProjectCols projects.cols = false then
    (st, some "Projects sheet must include Project Name, Latitude, Longitude")
  else
    let st1 := seedProjects projects.rows st
    let st2 := manageProjects chk dels st1
    let st3 := seedCompetitors companies.rows st2
    match radiusStep d mode radius companies.rows st3 with
    | Except.error e => (st3, some e)
    | Except.ok st4 => (st4, none)

/-- A concrete, computable distance function used to instantiate the
parameter `d` in witnesses: squared Euclidean distance on the plane. -/
def exD : ℚ → ℚ → ℚ → ℚ → ℚ :=
  fun plat plon la lo => (la - plat) * (la - plat) + (lo - plon) * (lo - plon)

/-- Witness fixture: a Projects sheet with one project P at the origin. -/
def exProjects : ProjectsSheet := ⟨requiredProjectCols, [⟨"P", 0, 0⟩]⟩

/-- Witness fixture: a Companies sheet whose single row has a non-numeric
Latitude cell. -/
def exBadCompanies : CompaniesSheet :=
  ⟨requiredCompanyCols, [⟨"LocA", "NameA", none, some 0⟩]⟩

/-- Witness fixture: a single well-formed company row. -/
def exGoodRows : List CompanyRow := [⟨"LocA", "NameA", some 1, some 0⟩]

/-- Witness fixture: a state with one visible project and one company. -/
def exState : AppState :=
  ⟨[("LocA", true)], [("P", ⟨0, 0, true⟩)], ["LocA"], -1⟩

/-- Witness fixture: like `exState` but the project is not visible. -/
def exInvisState : AppState :=
  ⟨[("LocA", true)], [("P", ⟨0, 0, false⟩)], ["LocA"], -1⟩

/-- Witness fixture: a state with a manually toggled-off company and a
last-applied radius of 5. -/
def exToggledState : AppState :=
  ⟨[("LocA", false)], [("P", ⟨0, 0, true⟩)], ["LocA"], 5⟩

theorem lookupKV_dinsert_self {β : Type} (m : List (String × β)) (k : String)
    (v : β) : lookupKV k (dinsert m k v) = some v := by
  induction m with
  | nil => simp [dinsert, lookupKV]
  | cons p rest ih =>
    by_cases h : k = p.1
    · simp [dinsert, lookupKV, h]
    · simp [dinsert, lookupKV, h, ih]

theorem lookupKV_dinsert_ne {β : Type} (m : List (String × β)) (k k' : String)
    (v : β) (h : k' ≠ k) : lookupKV k' (dinsert m k v) = lookupKV k' m := by
  induction m with
  | nil => simp [dinsert, lookupKV, h]
  | cons p rest ih =>
    by_cases h1 : k = p.1
    · by_cases h2 : k' = p.1
      · exact absurd (h2.trans h1.symm) h
      · simp [dinsert, lookupKV, h1, h2]
    · by_cases h2 : k' = p.1
      · simp [dinsert, lookupKV, h1, h2]
      · simp [dinsert, lookupKV, h1, h2, ih]

theorem lookupKV_append_some {β : Type} (m l : List (String × β)) (k : String)
    (v : β) (h : lookupKV k m = some v) : lookupKV k (m ++ l) = some v := by
  induction m with
  | nil => cases h
  | cons p rest ih =>
    by_cases h1 : k = p.1
    · simp only [lookupKV, if_pos h1] at h
      simpa [lookupKV, h1] using h
    · simp only [lookupKV, if_neg h1] at h
      simpa [lookupKV, h1] using ih h

theorem lookupKV_append_none {β : Type} (m l : List (String × β)) (k : String)
    (h : lookupKV k m = none) : lookupKV k (m ++ l) = lookupKV k l := by
  induction m with
  | nil => rfl
  | cons p rest ih =>
    by_cases h1 : k = p.1
    · simp only [lookupKV, if_pos h1] at h
      exact Option.noConfusion h
    · simp only [lookupKV, if_neg h1] at h
      simpa [lookupKV, h1] using ih h

theorem lookupKV_foldl_dinsert_not_mem {β γ : Type} (f : γ → String) (g : γ → β)
    (l : List γ) : ∀ (m : List (String × β)) (k : String), k ∉ l.map f →
    lookupKV k (l.foldl (fun acc p => dinsert acc (f p) (g p)) m) = lookupKV k m := by
  induction l with
  | nil => intro m k _; rfl
  | cons p rest ih =>
    intro m k h
    simp only [List.map_cons, List.mem_cons] at h
    push_neg at h
    simp only [List.foldl_cons]
    rw [ih _ _ h.2, lookupKV_dinsert_ne _ _ _ _ h.1]

theorem lookupKV_foldl_dinsert_mem {β γ : Type} (f : γ → String) (g : γ → β)
    (l : List γ) : ∀ (m : List (String × β)) (x : γ), (l.map f).Nodup → x ∈ l →
    lookupKV (f x) (l.foldl (fun acc p => dinsert acc (f p) (g p)) m) = some (g x) := by
  induction l with
  | nil => intro m x _ hx; cases hx
  | cons p rest ih =>
    intro m x hnd hx
    simp only [List.map_cons, List.nodup_cons] at hnd
    simp only [List.foldl_cons]
    rcases List.mem_cons.mp hx with h | h
    · subst h
      rw [lookupKV_foldl_dinsert_not_mem f g rest _ _ hnd.1, lookupKV_dinsert_self]
    · exact ih _ x hnd.2 h

theorem lookupKV_foldl_dinsert_isSome {β γ : Type} (f : γ → String) (g : γ → β)
    (l : List γ) : ∀ (m : List (String × β)) (k : String),
    (lookupKV k m).isSome = true →
    (lookupKV k (l.foldl (fun acc p => dinsert acc (f p) (g p)) m)).isSome = true := by
  induction l with
  | nil => intro m k h; exact h
  | cons p rest ih =>
    intro m k h
    simp only [List.foldl_cons]
    refine ih _ _ ?_
    by_cases h1 : k = f p
    · subst h1; rw [lookupKV_dinsert_self]; rfl
    · rw [lookupKV_dinsert_ne _ _ _ _ h1]; exact h

theorem lookupKV_foldl_dinsert_const_not_mem {β : Type} (v : β) (l : List String) :
    ∀ (m : List (String × β)) (k : String), k ∉ l →
    lookupKV k (l.foldl (fun acc c => dinsert acc c v) m) = lookupKV k m := by
  induction l with
  | nil => intro m k _; rfl
  | cons c rest ih =>
    intro m k h
    simp only [List.mem_cons] at h
    push_neg at h
    simp only [List.foldl_cons]
    rw [ih _ _ h.2, lookupKV_dinsert_ne _ _ _ _ h.1]

theorem lookupKV_foldl_dinsert_const {β : Type} (v : β) (l : List String) :
    ∀ (m : List (String × β)) (k : String), k ∈ l →
    lookupKV k (l.foldl (fun acc c => dinsert acc c v) m) = some v := by
  induction l with
  | nil => intro m k hk; cases hk
  | cons c rest ih =>
    intro m k hk
    simp only [List.foldl_cons]
    by_cases h : k ∈ rest
    · exact ih _ _ h
    · have hk2 : k = c := by
        rcases List.mem_cons.mp hk with h1 | h1
        · exact h1
        · exact absurd h1 h
      subst hk2
      rw [lookupKV_foldl_dinsert_const_not_mem v rest _ _ h, lookupKV_dinsert_self]

theorem seedStep_vis_some (st : AppState) (row : CompanyRow) (k : String)
    (v : Bool) (h : lookupKV k st.competitor_visibility = some v) :
    lookupKV k (seedStep st row).competitor_visibility = some v := by
  unfold seedStep
  by_cases h1 : (lookupKV row.location st.competitor_visibility).isSome
  · simpa [h1] using h
  · simp only [h1]
    simpa using lookupKV_append_some _ _ _ _ h

theorem seedStep_self_isSome (st : AppState) (row : CompanyRow) :
    (lookupKV row.location (seedStep st row).competitor_visibility).isSome = true := by
  unfold seedStep
  by_cases h1 : (lookupKV row.location st.competitor_visibility).isSome
  · simp [h1]
  · simp only [h1]
    have h2 : lookupKV row.location st.competitor_visibility = none :=
      Option.not_isSome_iff_eq_none.mp (by simpa using h1)
    simp [lookupKV_append_none _ _ _ h2, lookupKV]

theorem seedStep_none_or_true (st : AppState) (row : CompanyRow) (k : String)
    (h : lookupKV k st.competitor_visibility = none) :
    lookupKV k (seedStep st row).competitor_visibility = none ∨
    lookupKV k (seedStep st row).competitor_visibility = some true := by
  unfold seedStep
  by_cases h1 : (lookupKV row.location st.competitor_visibility).isSome
  · simp [h1, h]
  · simp only [h1]
    by_cases h2 : k = row.location
    · subst h2
      right
      simp [lookupKV_append_none _ _ _ h, lookupKV]
    · left
      simp [lookupKV_append_none _ _ _ h, lookupKV, h2]

theorem seedCompetitors_vis_some (rows : List CompanyRow) :
    ∀ (st : AppState) (k : String) (v : Bool),
    lookupKV k st.competitor_visibility = some v →
    lookupKV k (seedCompetitors rows st).competitor_visibility = some v := by
  induction rows with
  | nil => intro st k v h; exact h
  | cons row rest ih =>
    intro st k v h
    exact ih (seedStep st row) k v (seedStep_vis_some st row k v h)

theorem seedCompetitors_isSome (rows : List CompanyRow) :
    ∀ (st : AppState) (k : String),
    (lookupKV k st.competitor_visibility).isSome = true →
    (lookupKV k (seedCompetitors rows st).competitor_visibility).isSome = true := by
  intro st k h
  rcases Option.isSome_iff_exists.mp h with ⟨v, hv⟩
  rw [seedCompetitors_vis_some rows st k v hv]
  rfl

theorem seedCompetitors_mem_isSome (rows : List CompanyRow) :
    ∀ (st : AppState) (row : CompanyRow), row ∈ rows →
    (lookupKV row.location (seedCompetitors rows st).competitor_visibility).isSome = true := by
  induction rows with
  | nil => intro st row h; cases h
  | cons r rest ih =>
    intro st row h
    rcases List.mem_cons.mp h with h1 | h1
    · subst h1
      exact seedCompetitors_isSome rest (seedStep st row) row.location
        (seedStep_self_isSome st row)
    · exact ih (seedStep st r) row h1

theorem seedCompetitors_none_or_true (rows : List CompanyRow) :
    ∀ (st : AppState) (k : String),
    (lookupKV k st.competitor_visibility = none ∨
     lookupKV k st.competitor_visibility = some true) →
    (lookupKV k (seedCompetitors rows st).competitor_visibility = none ∨
     lookupKV k (seedCompetitors rows st).competitor_visibility = some true) := by
  induction rows with
  | nil => intro st k h; exact h
  | cons r rest ih =>
    intro st k h
    rcases h with h | h
    · exact ih (seedStep st r) k (seedStep_none_or_true st r k h)
    · exact ih (seedStep st r) k (Or.inr (seedStep_vis_some st r k true h))

theorem rowDist_ok (d : ℚ → ℚ → ℚ → ℚ → ℚ) (plat plon : ℚ) (row : CompanyRow)
    (la lo : ℚ) (hla : row.lat = some la) (hlo : row.lon = some lo) :
    rowDist d plat plon row = Except.ok (d plat plon la lo) := by
  simp [rowDist, hla, hlo]

theorem computeDistances_ok_keys (d : ℚ → ℚ → ℚ → ℚ → ℚ) (plat plon : ℚ)
    (rows : List CompanyRow) : ∀ (ds : List (String × ℚ)),
    computeDistances d plat plon rows = Except.ok ds →
    ds.map Prod.fst = rows.map CompanyRow.location := by
  induction rows with
  | nil =>
    intro ds h
    simp only [computeDistances] at h
    injection h with h2
    subst h2
    rfl
  | cons row rest ih =>
    intro ds h
    simp only [computeDistances] at h
    cases hrd : rowDist d plat plon row with
    | error e => rw [hrd] at h; exact Except.noConfusion h
    | ok dist =>
      rw [hrd] at h
      cases hrec : computeDistances d plat plon rest with
      | error e => rw [hrec] at h; exact Except.noConfusion h
      | ok ds' =>
        rw [hrec] at h
        injection h with h2
        subst h2
        simp [ih ds' hrec]

theorem computeDistances_ok_mem (d : ℚ → ℚ → ℚ → ℚ → ℚ) (plat plon : ℚ)
    (rows : List CompanyRow) : ∀ (ds : List (String × ℚ)),
    computeDistances d plat plon rows = Except.ok ds →
    ∀ row ∈ rows, ∀ la lo : ℚ, row.lat = some la → row.lon = some lo →
    (row.location, d plat plon la lo) ∈ ds := by
  induction rows with
  | nil => intro ds _ row hrow; cases hrow
  | cons r rest ih =>
    intro ds h row hrow la lo hla hlo
    simp only [computeDistances] at h
    cases hrd : rowDist d plat plon r with
    | error e => rw [hrd] at h; exact Except.noConfusion h
    | ok dist =>
      rw [hrd] at h
      cases hrec : computeDistances d plat plon rest with
      | error e => rw [hrec] at h; exact Except.noConfusion h
      | ok ds' =>
        rw [hrec] at h
        injection h with h2
        subst h2
        rcases List.mem_cons.mp hrow with h1 | h1
        · subst h1
          rw [rowDist_ok d plat plon row la lo hla hlo] at hrd
          injection hrd with h3
          exact List.mem_cons.mpr (Or.inl (by rw [h3]))
        · exact List.mem_cons.mpr (Or.inr (ih ds' hrec row h1 la lo hla hlo))

theorem sin_radians_sub_sq_symm (x y : ℝ) :
    Real.sin (radians (x - y) / 2) ^ 2 = Real.sin (radians (y - x) / 2) ^ 2 := by
  have h : radians (x - y) / 2 = -(radians (y - x) / 2) := by
    simp only [radians]
    ring
  rw [h, Real.sin_neg, neg_sq]

/-- C9: the haversine distance is symmetric in its two coordinate pairs,
and the haversine distance from any point to itself is zero. -/
theorem c9_haversine_symm_and_self_zero :
    (∀ lat1 lon1 lat2 lon2 : ℝ,
       haversine lat1 lon1 lat2 lon2 = haversine lat2 lon2 lat1 lon1) ∧
    (∀ lat lon : ℝ, haversine lat lon lat lon = 0) := by
  constructor
  · intro lat1 lon1 lat2 lon2
    simp only [haversine]
    rw [sin_radians_sub_sq_symm lat2 lat1, sin_radians_sub_sq_symm lon2 lon1,
      mul_comm (Real.cos (radians lat1)) (Real.cos (radians lat2))]
  · intro lat lon
    simp [haversine, radians, Real.arcsin_zero]

/-- C10: the Add Project handler unconditionally stores the entry
(lat, lon, visible=true) under the given name — a fresh name yields a new
visible project, an existing name has its record overwritten and its flag
reset to true — and no other entry is touched; there is no uniqueness or
non-emptiness check on the name. -/
theorem c10_add_project_overwrites (st : AppState) (n : String) (la lo : ℚ) :
    lookupKV n (addProject n la lo st).project_sites = some ⟨la, lo, true⟩ ∧
    ∀ n' : String, n' ≠ n →
      lookupKV n' (addProject n la lo st).project_sites =
        lookupKV n' st.project_sites := by
  constructor
  · exact lookupKV_dinsert_self _ _ _
  · intro n' h
    exact lookupKV_dinsert_ne _ _ _ _ h

/-- Witness for C10 at the spec's example: adding X at (40, -75) over a
state that already has an X entry overwrites it and leaves P untouched. -/
theorem c10_witness :
    lookupKV "X" (addProject "X" 40 (-75)
        ⟨[], [("X", ⟨1, 2, false⟩), ("P", ⟨0, 0, true⟩)], [], -1⟩).project_sites =
      some ⟨40, -75, true⟩ ∧
    lookupKV "P" (addProject "X" 40 (-75)
        ⟨[], [("X", ⟨1, 2, false⟩), ("P", ⟨0, 0, true⟩)], [], -1⟩).project_sites =
      lookupKV "P"
        (⟨[], [("X", ⟨1, 2, false⟩), ("P", ⟨0, 0, true⟩)], [], -1⟩ : AppState).project_sites :=
  ⟨(c10_add_project_overwrites ⟨[], [("X", ⟨1, 2, false⟩), ("P", ⟨0, 0, true⟩)], [], -1⟩ "X" 40 (-75)).1,
   (c10_add_project_overwrites ⟨[], [("X", ⟨1, 2, false⟩), ("P", ⟨0, 0, true⟩)], [], -1⟩ "X" 40 (-75)).2 "P" (by decide)⟩

/-- C3: the bulk group toggle acts on the aggregate: when every member of
the group is currently visible (missing entries defaulting to visible) it
sets every member to not-visible, and otherwise — including for a group of
mixed visibility — it sets every member to visible; it is not a
per-member flip. -/
theorem c3_bulk_toggle_aggregate (members : List String)
    (vis : List (String × Bool)) :
    ((∀ c ∈ members, (lookupKV c vis).getD true = true) →
       ∀ c ∈ members, lookupKV c (bulkToggle members vis) = some false) ∧
    ((∃ c ∈ members, (lookupKV c vis).getD true = false) →
       ∀ c ∈ members, lookupKV c (bulkToggle members vis) = some true) := by
  constructor
  · intro h c hc
    have hall : members.all (fun c => (lookupKV c vis).getD true) = true :=
      List.all_eq_true.mpr h
    simp only [bulkToggle, hall, Bool.not_true]
    exact lookupKV_foldl_dinsert_const false members vis c hc
  · intro h c hc
    rcases h with ⟨c0, hc0, hfalse⟩
    have hall : members.all (fun c => (lookupKV c vis).getD true) = false := by
      cases hAll : members.all (fun c => (lookupKV c vis).getD true) with
      | false => rfl
      | true =>
        have h2 := List.all_eq_true.mp hAll c0 hc0
        rw [hfalse] at h2
        exact Bool.noConfusion h2
    simp only [bulkToggle, hall, Bool.not_false]
    exact lookupKV_foldl_dinsert_const true members vis c hc

/-- Witness for C3: a mixed-visibility group is set entirely visible, an
all-visible group entirely not-visible. -/
theorem c3_witness :
    lookupKV "a" (bulkToggle ["a", "b"] [("a", true), ("b", false)]) = some true ∧
    lookupKV "a" (bulkToggle ["a", "b"] [("a", true), ("b", true)]) = some false :=
  ⟨(c3_bulk_toggle_aggregate ["a", "b"] [("a", true), ("b", false)]).2
      ⟨"b", by decide, by decide⟩ "a" (by decide),
   (c3_bulk_toggle_aggregate ["a", "b"] [("a", true), ("b", true)]).1
      (by decide) "a" (by decide)⟩

theorem recomputeFrom_ok_eq (d : ℚ → ℚ → ℚ → ℚ → ℚ) (radius : ℚ)
    (pd : ProjectData) (rows : List CompanyRow) (st : AppState)
    (ds : List (String × ℚ))
    (hds : computeDistances d pd.lat pd.lon rows = Except.ok ds) :
    recomputeFrom d radius pd rows st =
      (if radius = st.last_radius then Except.ok st
       else Except.ok
        { st with
          competitor_visibility :=
            (ds.foldl (fun m p => dinsert m p.1 (decide (p.2 ≤ radius)))
              st.competitor_visibility),
          project_sites :=
            (st.project_sites.map (fun p =>
              (p.1, { p.2 with visible := decide (d pd.lat pd.lon p.2.lat p.2.lon ≤ radius) }))),
          last_radius := radius }) := by
  unfold recomputeFrom
  rw [hds]

theorem recomputeFrom_error_eq (d : ℚ → ℚ → ℚ → ℚ → ℚ) (radius : ℚ)
    (pd : ProjectData) (rows : List CompanyRow) (st : AppState) (e : String)
    (hds : computeDistances d pd.lat pd.lon rows = Except.error e) :
    recomputeFrom d radius pd rows st = Except.error e := by
  unfold recomputeFrom
  rw [hds]

theorem radiusStep_nil_eq (d : ℚ → ℚ → ℚ → ℚ → ℚ) (radius : ℚ)
    (rows : List CompanyRow) (st : AppState)
    (h : st.project_sites.filter (fun p => p.2.visible) = []) :
    radiusStep d Mode.radiusOfProject radius rows st = Except.ok st := by
  simp [radiusStep, h]

theorem radiusStep_cons_eq (d : ℚ → ℚ → ℚ → ℚ → ℚ) (radius : ℚ)
    (rows : List CompanyRow) (st : AppState) (sel : String × ProjectData)
    (rest : List (String × ProjectData))
    (h : st.project_sites.filter (fun p => p.2.visible) = sel :: rest) :
    radiusStep d Mode.radiusOfProject radius rows st =
      recomputeFrom d radius sel.2 rows st := by
  simp [radiusStep, h]

/-- C1: in radius mode with a visible project, when the requested radius
differs from the last-applied one, the recompute overwrites every
company's and every project's visible flag with exactly
(distance from the reference project <= radius), boundary inclusive, and
records the new radius. -/
theorem c1_recompute_overwrite (d : ℚ → ℚ → ℚ → ℚ → ℚ) (radius : ℚ)
    (rows : List CompanyRow) (st : AppState)
    (sel : String × ProjectData) (rest : List (String × ProjectData))
    (hsel : st.project_sites.filter (fun p => p.2.visible) = sel :: rest)
    (hrad : radius ≠ st.last_radius)
    (hnd : (rows.map CompanyRow.location).Nodup)
    (ds : List (String × ℚ))
    (hds : computeDistances d sel.2.lat sel.2.lon rows = Except.ok ds) :
    ∃ st' : AppState,
      radiusStep d Mode.radiusOfProject radius rows st = Except.ok st' ∧
      (∀ row ∈ rows, ∀ la lo : ℚ, row.lat = some la → row.lon = some lo →
        lookupKV row.location st'.competitor_visibility =
          some (decide (d sel.2.lat sel.2.lon la lo ≤ radius))) ∧
      st'.project_sites = st.project_sites.map (fun p =>
        (p.1, { p.2 with visible := decide (d sel.2.lat sel.2.lon p.2.lat p.2.lon ≤ radius) })) ∧
      st'.last_radius = radius := by
  refine ⟨{ st with
      competitor_visibility :=
        (ds.foldl (fun m p => dinsert m p.1 (decide (p.2 ≤ radius)))
          st.competitor_visibility),
      project_sites :=
        (st.project_sites.map (fun p =>
          (p.1, { p.2 with visible := decide (d sel.2.lat sel.2.lon p.2.lat p.2.lon ≤ radius) }))),
      last_radius := radius }, ?_, ?_, ?_, ?_⟩
  · simp only [radiusStep, hsel, recomputeFrom, hds]
    rw [if_neg hrad]
  · intro row hrow la lo hla hlo
    have hmem := computeDistances_ok_mem d sel.2.lat sel.2.lon rows ds hds
      row hrow la lo hla hlo
    have hkeys := computeDistances_ok_keys d sel.2.lat sel.2.lon rows ds hds
    have hnd2 : (ds.map Prod.fst).Nodup := by rw [hkeys]; exact hnd
    have h3 := lookupKV_foldl_dinsert_mem Prod.fst
      (fun p => decide (p.2 ≤ radius)) ds st.competitor_visibility
      (row.location, d sel.2.lat sel.2.lon la lo) hnd2 hmem
    simpa using h3
  · rfl
  · rfl

/-- Witness for C1: one visible project at the origin, one company at
squared distance 1, radius 5 against a last-applied radius of -1. -/
theorem c1_witness :
    (5 : ℚ) ≠ exState.last_radius ∧
    (∃ st' : AppState,
      radiusStep exD Mode.radiusOfProject 5 exGoodRows exState = Except.ok st' ∧
      (∀ row ∈ exGoodRows, ∀ la lo : ℚ, row.lat = some la → row.lon = some lo →
        lookupKV row.location st'.competitor_visibility =
          some (decide (exD 0 0 la lo ≤ 5))) ∧
      st'.project_sites = exState.project_sites.map (fun p =>
        (p.1, { p.2 with visible := decide (exD 0 0 p.2.lat p.2.lon ≤ 5) })) ∧
      st'.last_radius = 5) :=
  ⟨by decide,
   c1_recompute_overwrite exD 5 exGoodRows exState ("P", ⟨0, 0, true⟩) []
     rfl (by decide) (by decide) [("LocA", exD 0 0 1 0)] (by rfl)⟩

/-- C2: when the requested radius equals the last-applied radius the
radius-handling step recomputes nothing: any state it returns successfully
is the input state unchanged, manual toggles included. -/
theorem c2_same_radius_no_recompute (d : ℚ → ℚ → ℚ → ℚ → ℚ) (mode : Mode)
    (radius : ℚ) (rows : List CompanyRow) (st st' : AppState)
    (hrad : radius = st.last_radius)
    (hok : radiusStep d mode radius rows st = Except.ok st') : st' = st := by
  cases mode with
  | allCompanies =>
    simp only [radiusStep] at hok
    injection hok with h
    exact h.symm
  | radiusOfProject =>
    cases hfil : st.project_sites.filter (fun p => p.2.visible) with
    | nil =>
      rw [radiusStep_nil_eq d radius rows st hfil] at hok
      injection hok with h
      exact h.symm
    | cons sel rest =>
      rw [radiusStep_cons_eq d radius rows st sel rest hfil] at hok
      cases hds : computeDistances d sel.2.lat sel.2.lon rows with
      | error e =>
        rw [recomputeFrom_error_eq d radius sel.2 rows st e hds] at hok
        exact Except.noConfusion hok
      | ok ds =>
        rw [recomputeFrom_ok_eq d radius sel.2 rows st ds hds, if_pos hrad] at hok
        injection hok with h
        exact h.symm

/-- Witness for C2: radius 5 equals the last-applied radius of a state
with a manually toggled-off company; the step leaves it unchanged. -/
theorem c2_witness :
    (5 : ℚ) = exToggledState.last_radius ∧ exToggledState = exToggledState :=
  ⟨by decide,
   c2_same_radius_no_recompute exD Mode.radiusOfProject 5 exGoodRows
     exToggledState exToggledState (by decide) (by rfl)⟩

/-- C6: in radius mode, when no project is visible the radius-handling
step is silently skipped and the state is unchanged; otherwise the
reference point is the first visible project in iteration order and the
step is exactly the recompute from that project's coordinates. -/
theorem c6_reference_selection (d : ℚ → ℚ → ℚ → ℚ → ℚ) (radius : ℚ)
    (rows : List CompanyRow) (st : AppState) :
    (st.project_sites.filter (fun p => p.2.visible) = [] →
       radiusStep d Mode.radiusOfProject radius rows st = Except.ok st) ∧
    (∀ (sel : String × ProjectData) (rest : List (String × ProjectData)),
       st.project_sites.filter (fun p => p.2.visible) = sel :: rest →
       radiusStep d Mode.radiusOfProject radius rows st =
         recomputeFrom d radius sel.2 rows st) := by
  constructor
  · intro h
    simp [radiusStep, h]
  · intro sel rest h
    simp [radiusStep, h]

/-- Witness for C6: a state whose only project is hidden is passed through
unchanged; with the project visible the step is the recompute from it. -/
theorem c6_witness :
    radiusStep exD Mode.radiusOfProject 7 exGoodRows exInvisState =
      Except.ok exInvisState ∧
    radiusStep exD Mode.radiusOfProject 7 exGoodRows exState =
      recomputeFrom exD 7 (⟨0, 0, true⟩ : ProjectData) exGoodRows exState :=
  ⟨(c6_reference_selection exD 7 exGoodRows exInvisState).1 rfl,
   (c6_reference_selection exD 7 exGoodRows exState).2 ("P", ⟨0, 0, true⟩) [] rfl⟩

/-- C7: loading seeds the project sites from the Projects sheet rows, each
visible, exactly when the project-site dict is empty beforehand; a
non-empty dict is left untouched by loading. -/
theorem c7_seed_only_first_load (rows : List ProjectRow) (st : AppState)
    (hnd : (rows.map ProjectRow.pname).Nodup) :
    (st.project_sites = [] →
       ∀ r ∈ rows, lookupKV r.pname (seedProjects rows st).project_sites =
         some ⟨r.lat, r.lon, true⟩) ∧
    (st.project_sites ≠ [] → seedProjects rows st = st) := by
  constructor
  · intro hempty r hr
    have h1 := lookupKV_foldl_dinsert_mem ProjectRow.pname
      (fun r => (⟨r.lat, r.lon, true⟩ : ProjectData)) rows st.project_sites r hnd hr
    simp only [seedProjects, if_pos hempty]
    simpa using h1
  · intro hne
    simp [seedProjects, hne]

/-- Witness for C7: seeding from a one-project sheet populates an empty
state; a state that already has a project is left unchanged. -/
theorem c7_witness :
    lookupKV "P" (seedProjects exProjects.rows initialState).project_sites =
      some ⟨0, 0, true⟩ ∧
    seedProjects exProjects.rows exState = exState :=
  ⟨(c7_seed_only_first_load exProjects.rows initialState (by decide)).1 rfl
      ⟨"P", 0, 0⟩ (by decide),
   (c7_seed_only_first_load exProjects.rows exState (by decide)).2 (by decide)⟩

/-- C4: when either sheet lacks a required column, the processing pass
reports a validation error and the whole session state is unchanged. -/
theorem c4_missing_columns (d : ℚ → ℚ → ℚ → ℚ → ℚ) (mode : Mode) (radius : ℚ)
    (chk : String → Bool) (dels : List String)
    (companies : CompaniesSheet) (projects : ProjectsSheet) (st : AppState)
    (h : hasCols requiredCompanyCols companies.cols = false ∨
         hasCols requiredProjectCols projects.cols = false) :
    (processUpload d mode radius chk dels companies projects st).1 = st ∧
    (processUpload d mode radius chk dels companies projects st).2.isSome = true := by
  rcases h with h | h
  · simp [processUpload, h]
  · by_cases h1 : hasCols requiredCompanyCols companies.cols = false
    · simp [processUpload, h1]
    · simp [processUpload, h1, h]

/-- Witness for C4: a Companies sheet with only a Latitude column. -/
theorem c4_witness :
    (processUpload exD Mode.allCompanies 5 (fun _ => true) []
       (⟨["Latitude"], []⟩ : CompaniesSheet) exProjects exState).1 = exState ∧
    (processUpload exD Mode.allCompanies 5 (fun _ => true) []
       (⟨["Latitude"], []⟩ : CompaniesSheet) exProjects exState).2.isSome = true :=
  c4_missing_columns exD Mode.allCompanies 5 (fun _ => true) []
    ⟨["Latitude"], []⟩ exProjects exState (Or.inl (by decide))

/-- C5 counterexample: a pass whose Companies sheet has a single row with
a non-numeric Latitude cell raises in the distance computation after the
project and company seeding stages have already mutated the session state;
the error is reported, yet the resulting state differs from the state
before the pass — so it is false that no partial mutation survives a
failed pass. -/
theorem c5_counterexample :
    (processUpload exD Mode.radiusOfProject 5 (fun _ => true) []
       exBadCompanies exProjects initialState).2.isSome = true ∧
    (processUpload exD Mode.radiusOfProject 5 (fun _ => true) []
       exBadCompanies exProjects initialState).1 ≠ initialState := by
  decide

/-- C5 amended: every exception in the load/processing pipeline is caught
and reported as a single message, and the state returned is the state as
mutated by the stages completed before the raise — mutations made earlier
in the failed pass persist rather than being rolled back to the pre-pass
state. -/
theorem c5_caught_with_partial_state (d : ℚ → ℚ → ℚ → ℚ → ℚ) (mode : Mode)
    (radius : ℚ) (chk : String → Bool) (dels : List String)
    (companies : CompaniesSheet) (projects : ProjectsSheet) (st : AppState)
    (e : String)
    (hc : hasCols requiredCompanyCols companies.cols = true)
    (hp : hasCols requiredProjectCols projects.cols = true)
    (herr : radiusStep d mode radius companies.rows
        (seedCompetitors companies.rows
          (manageProjects chk dels (seedProjects projects.rows st))) =
        Except.error e) :
    processUpload d mode radius chk dels companies projects st =
      (seedCompetitors companies.rows
        (manageProjects chk dels (seedProjects projects.rows st)), some e) := by
  simp [processUpload, hc, hp, herr]

/-- Witness for the amended C5: the same failing input as the
counterexample, showing the caught error and the partially mutated state. -/
theorem c5_witness :
    processUpload exD Mode.radiusOfProject 5 (fun _ => true) []
        exBadCompanies exProjects initialState =
      (seedCompetitors exBadCompanies.rows
        (manageProjects (fun _ => true) [] (seedProjects exProjects.rows initialState)),
       some "unsupported operand type in distance computation") :=
  c5_caught_with_partial_state exD Mode.radiusOfProject 5 (fun _ => true) []
    exBadCompanies exProjects initialState
    "unsupported operand type in distance computation" (by decide) (by decide) (by rfl)

theorem radiusStep_vis_isSome (d : ℚ → ℚ → ℚ → ℚ → ℚ) (mode : Mode)
    (radius : ℚ) (rows : List CompanyRow) (st st' : AppState) (k : String)
    (hsome : (lookupKV k st.competitor_visibility).isSome = true)
    (hok : radiusStep d mode radius rows st = Except.ok st') :
    (lookupKV k st'.competitor_visibility).isSome = true := by
  cases mode with
  | allCompanies =>
    simp only [radiusStep] at hok
    injection hok with h
    subst h
    exact hsome
  | radiusOfProject =>
    cases hfil : st.project_sites.filter (fun p => p.2.visible) with
    | nil =>
      rw [radiusStep_nil_eq d radius rows st hfil] at hok
      injection hok with h
      subst h
      exact hsome
    | cons sel rest =>
      rw [radiusStep_cons_eq d radius rows st sel rest hfil] at hok
      cases hds : computeDistances d sel.2.lat sel.2.lon rows with
      | error e =>
        rw [recomputeFrom_error_eq d radius sel.2 rows st e hds] at hok
        exact Except.noConfusion hok
      | ok ds =>
        rw [recomputeFrom_ok_eq d radius sel.2 rows st ds hds] at hok
        by_cases hrad : radius = st.last_radius
        · rw [if_pos hrad] at hok
          injection hok with h
          subst h
          exact hsome
        · rw [if_neg hrad] at hok
          injection hok with h
          subst h
          exact lookupKV_foldl_dinsert_isSome Prod.fst
            (fun p => decide (p.2 ≤ radius)) ds st.competitor_visibility k hsome

/-- C8: after the company-seeding loop every company location of the sheet
has a visibility entry, a location without a prior entry getting the
value true; and no operation of the application ever removes an existing
company visibility entry. -/
theorem c8_company_entry_invariant (rows : List CompanyRow) (st : AppState) :
    (∀ row ∈ rows,
       (lookupKV row.location (seedCompetitors rows st).competitor_visibility).isSome = true) ∧
    (∀ row ∈ rows, lookupKV row.location st.competitor_visibility = none →
       lookupKV row.location (seedCompetitors rows st).competitor_visibility = some true) ∧
    (∀ (k : String) (v : Bool), lookupKV k st.competitor_visibility = some v →
       (∀ (n : String) (la lo : ℚ),
          (lookupKV k (addProject n la lo st).competitor_visibility).isSome = true) ∧
       (∀ prows : List ProjectRow,
          (lookupKV k (seedProjects prows st).competitor_visibility).isSome = true) ∧
       (∀ (chk : String → Bool) (dels : List String),
          (lookupKV k (manageProjects chk dels st).competitor_visibility).isSome = true) ∧
       (∀ rows2 : List CompanyRow,
          (lookupKV k (seedCompetitors rows2 st).competitor_visibility).isSome = true) ∧
       (∀ members : List String,
          (lookupKV k (bulkToggle members st.competitor_visibility)).isSome = true) ∧
       (∀ (c : String) (b : Bool),
          (lookupKV k (setCompetitorVisible c b st).competitor_visibility).isSome = true) ∧
       (∀ (d : ℚ → ℚ → ℚ → ℚ → ℚ) (mode : Mode) (radius : ℚ)
          (rows2 : List CompanyRow) (st' : AppState),
          radiusStep d mode radius rows2 st = Except.ok st' →
          (lookupKV k st'.competitor_visibility).isSome = true)) := by
  refine ⟨?_, ?_, ?_⟩
  · intro row hrow
    exact seedCompetitors_mem_isSome rows st row hrow
  · intro row hrow hnone
    have h1 := seedCompetitors_mem_isSome rows st row hrow
    have h2 := seedCompetitors_none_or_true rows st row.location (Or.inl hnone)
    rcases h2 with h2 | h2
    · rw [h2] at h1; exact Bool.noConfusion h1
    · exact h2
  · intro k v hv
    have hsome : (lookupKV k st.competitor_visibility).isSome = true := by
      rw [hv]; rfl
    refine ⟨?_, ?_, ?_, ?_, ?_, ?_, ?_⟩
    · intro n la lo
      exact hsome
    · intro prows
      by_cases h : st.project_sites = []
      · simpa [seedProjects, h] using hsome
      · simpa [seedProjects, h] using hsome
    · intro chk dels
      exact hsome
    · intro rows2
      exact seedCompetitors_isSome rows2 st k hsome
    · intro members
      simp only [bulkToggle]
      exact lookupKV_foldl_dinsert_isSome (fun c => c)
        (fun _ => !(members.all (fun c => (lookupKV c st.competitor_visibility).getD true)))
        members st.competitor_visibility k hsome
    · intro c b
      simp only [setCompetitorVisible]
      by_cases h : k = c
      · subst h
        rw [lookupKV_dinsert_self]
        rfl
      · show (lookupKV k (dinsert st.competitor_visibility c b)).isSome = true
        rw [lookupKV_dinsert_ne _ _ _ _ h]
        exact hsome
    · intro d mode radius rows2 st' hok
      exact radiusStep_vis_isSome d mode radius rows2 st st' k hsome hok

/-- Witness for C8: seeding an empty state gives the company an entry with
value true, and adding a project preserves an existing entry. -/
theorem c8_witness :
    (lookupKV "LocA" (seedCompetitors exGoodRows initialState).competitor_visibility).isSome = true ∧
    lookupKV "LocA" (seedCompetitors exGoodRows initialState).competitor_visibility = some true ∧
    (lookupKV "LocA" (addProject "X" 40 (-75) exState).competitor_visibility).isSome = true :=
  ⟨(c8_company_entry_invariant exGoodRows initialState).1
      ⟨"LocA", "NameA", some 1, some 0⟩ (by decide),
   (c8_company_entry_invariant exGoodRows initialState).2.1
      ⟨"LocA", "NameA", some 1, some 0⟩ (by decide) (by rfl),
   ((c8_company_entry_invariant exGoodRows exState).2.2 "LocA" true (by rfl)).1 "X" 40 (-75)⟩
